import Mathlib

/-!
Verification of the drag-and-drop interaction engine against its design
specification.  The repository sources provide the drag-drop-context `App`
component (`src/src/view/drag-drop-context/app.tsx`), the example consumer
(`QuoteApp` with `useDemoSensor` and `onDragEnd`), and the integration tests
for move throttling, announcements, and error handling.  Components of the
engine that are only exercised by those callers and tests (the Sensor/Lock
Marshal, the `flush` reducer, the animation-frame move throttler, the
responder middleware, and the `reorder` list helper) are modelled from the
specification; each such definition carries a doc comment starting with
`Modelled from the spec:`.
-/

namespace Dnd

/-- Drag lifecycle phases of the published store state (`State.phase` as read
by `app.tsx`: IDLE, COLLECTING, DRAGGING, DROP_PENDING, DROP_ANIMATING). -/
inductive Phase where
  | idle
  | collecting
  | dragging
  | dropPending
  | dropAnimating
  deriving DecidableEq

/-- Data carried by every non-idle published state: the critical pair fixed at
lift time and the `isDragging` flag that `app.tsx` reads off the state. -/
structure DragData where
  draggableId : String
  homeDroppableId : String
  isDragging : Bool
  deriving DecidableEq

/-- Published store state as a tagged variant over phases; only non-IDLE
variants carry drag data (spec section 3, `DragState`). -/
inductive DragState where
  | idle
  | collecting (data : DragData)
  | dragging (data : DragData)
  | dropPending (data : DragData)
  | dropAnimating (data : DragData)
  deriving DecidableEq

/-- Phase tag of a published state (`state.phase` in `app.tsx`). -/
def DragState.phase : DragState → Phase
  | .idle => .idle
  | .collecting _ => .collecting
  | .dragging _ => .dragging
  | .dropPending _ => .dropPending
  | .dropAnimating _ => .dropAnimating

/-- Value of the `isDragging` field carried by the state's drag data
(`state.isDragging` in `app.tsx`; the idle state carries no such field and
the accessor is never consulted there). -/
def DragState.isDraggingFlag : DragState → Bool
  | .idle => false
  | .collecting d => d.isDragging
  | .dragging d => d.isDragging
  | .dropPending d => d.isDragging
  | .dropAnimating d => d.isDragging

/-- Modelled from the spec: the `flush` reducer case of the Drag State Machine
is not among the sources (only its dispatch site in `app.tsx` is).  Spec 4.1:
"`flush` is callable from any non-IDLE phase and unconditionally returns to
IDLE, discarding in-flight geometry requests and any pending lock". -/
def flush : DragState → DragState := fun _ => DragState.idle

/-- Embedding of `tryResetStore` from `app.tsx` lines 190-196: read the
current state and dispatch `flush` only when the phase is not IDLE. -/
def tryResetStore (s : DragState) : DragState :=
  if s.phase ≠ Phase.idle then flush s else s

/-- Embedding of the App's `isDragging` callback from `app.tsx` lines
198-210: DROP_ANIMATING reports true, IDLE reports false, every other phase
defers to the state's own `isDragging` flag. -/
def isDragging (s : DragState) : Bool :=
  if s.phase = Phase.dropAnimating then true
  else if s.phase = Phase.idle then false
  else s.isDraggingFlag

/-- Modelled from the spec: the claim record of the Sensor/Lock Marshal,
which is not among the sources (only the `useDemoSensor` caller and the
sensor tests are).  `claimedBy` is `none` when unclaimed and `some sourceId`
when that input source owns the single system-wide lock (spec 4.4). -/
structure LockMarshal where
  claimedBy : Option Nat
  deriving DecidableEq

/-- Modelled from the spec: `tryGetLock` of the Sensor/Lock Marshal (spec
4.4): it succeeds (second component `true`, standing for a returned
`PreDragActions` handle) only if no lock is held; otherwise it fails silently
and leaves the marshal untouched. -/
def tryGetLock (m : LockMarshal) (sourceId : Nat) : LockMarshal × Bool :=
  if m.claimedBy.isSome then (m, false)
  else ({ claimedBy := some sourceId }, true)

/-- Modelled from the spec: releasing or aborting the current lock returns
the marshal to the unclaimed state (spec 4.4, lock lifetime). -/
def releaseLock (_m : LockMarshal) : LockMarshal := { claimedBy := none }

/-- Events a trace of input sources can issue against the Lock Marshal:
an acquisition attempt by a given source, or a release/abort of the lock. -/
inductive LockEvent where
  | tryGet (sourceId : Nat)
  | release
  deriving DecidableEq

/-- Run a trace of lock events, returning the final marshal state and the
number of acquisition attempts that succeeded. -/
def runLock : LockMarshal → List LockEvent → LockMarshal × Nat
  | m, [] => (m, 0)
  | m, LockEvent.tryGet i :: rest =>
      let step := tryGetLock m i
      let next := runLock step.1 rest
      (next.1, (if step.2 then 1 else 0) + next.2)
  | m, LockEvent.release :: rest => runLock (releaseLock m) rest

/-- While the lock is claimed, a release-free trace admits no successful
acquisition at all. -/
theorem runLock_claimed_eq_zero (m : LockMarshal) (es : List LockEvent)
    (hm : m.claimedBy.isSome) (hnr : ∀ e ∈ es, e ≠ LockEvent.release) :
    (runLock m es).2 = 0 := by
  induction es generalizing m with
  | nil => rfl
  | cons e rest ih =>
      cases e with
      | tryGet i =>
          have hstep : tryGetLock m i = (m, false) := by
            simp [tryGetLock, hm]
          have hrest : ∀ e ∈ rest, e ≠ LockEvent.release := fun e he =>
            hnr e (List.mem_cons_of_mem _ he)
          simp [runLock, hstep, ih m hm hrest]
      | release =>
          exact absurd rfl (hnr LockEvent.release (List.mem_cons_self _ _))

/-- Combined engine state used by the error-handling claims: the published
drag state together with the Lock Marshal. -/
structure Engine where
  drag : DragState
  lock : LockMarshal
  deriving DecidableEq

/-- Modelled from the spec: the window error handler wiring, which is not
among the sources (only the error-handling test and the `tryAbort` callback
in `app.tsx` are).  Spec section 7(b): any uncaught error while a lock is
held is "not inspected for cause, always treated uniformly: abort the active
drag via `flush`, release the lock".  The abort goes through the App's
`tryAbort` callback, which is `tryResetStore`; the error value is ignored. -/
def onExternalError (Error : Type) (_err : Error) (e : Engine) : Engine :=
  { drag := tryResetStore e.drag, lock := releaseLock e.lock }

/-- Pointer position, as in `css-box-model`'s `Position`. -/
structure Position where
  x : Int
  y : Int
  deriving DecidableEq

/-- Modelled from the spec: the animation-frame move throttler used by
`fluidLift`, which is not among the sources (only the move-throttling test
is).  Spec section 5 and design note: "at most one pending tick; new
positions coalesce into the next tick".  `pending` is the single coalesced
position awaiting the next frame; `applied` records the move-derived state
updates that have actually been dispatched, in order. -/
structure MoveThrottler where
  pending : Option Position
  applied : List Position
  deriving DecidableEq

/-- Modelled from the spec: `move(clientPosition)` on a fluid drag schedules
the position for the next frame, replacing (not queuing behind) any position
already pending. -/
def move (t : MoveThrottler) (p : Position) : MoveThrottler :=
  { t with pending := some p }

/-- Modelled from the spec: the animation-frame tick fires: the single
pending position, if any, is applied as one state update and the pending
slot is cleared. -/
def frameTick (t : MoveThrottler) : MoveThrottler :=
  match t.pending with
  | none => t
  | some p => { pending := none, applied := t.applied ++ [p] }

/-- Issue a sequence of `move` calls within one animation frame. -/
def moveAll (t : MoveThrottler) (ps : List Position) : MoveThrottler :=
  ps.foldl move t

/-- Modelled from the spec: a `FluidDragActions` handle together with its
lock status.  Spec 4.4: "Any method on a stale/released handle is a
no-op-safe rejection, not a crash". -/
structure FluidHandle where
  isActive : Bool
  throttler : MoveThrottler
  deriving DecidableEq

/-- Modelled from the spec: `move` on a fluid handle schedules the position
only while the handle still holds the lock; on a stale handle it is a no-op
rejection. -/
def fluidMove (h : FluidHandle) (p : Position) : FluidHandle :=
  if h.isActive then { h with throttler := move h.throttler p } else h

/-- Modelled from the spec: `cancel()` on a fluid handle releases the lock
and cancels the pending animation-frame move (the move-throttling test:
"should cancel any pending moves after a lock is released"); on a stale
handle it is a no-op rejection. -/
def fluidCancel (h : FluidHandle) : FluidHandle :=
  if h.isActive then
    { isActive := false,
      throttler := { pending := none, applied := h.throttler.applied } }
  else h

/-- The animation-frame tick as seen through a fluid handle. -/
def fluidTick (h : FluidHandle) : FluidHandle :=
  { h with throttler := frameTick h.throttler }

/-- Modelled from the spec: the one-shot `announce` capability handed to each
lifecycle responder by the Responder Middleware (not among the sources; only
its tests are).  It records whether it was already used and whether its
synchronous window has expired (spec 4.6). -/
structure OneShotAnnounce where
  wasCalled : Bool
  isExpired : Bool
  deriving DecidableEq

/-- Outcome of running one transition through the Responder Middleware: the
screen-reader messages actually emitted, in order, and the number of
developer warnings raised. -/
structure AnnounceOutcome where
  emitted : List String
  warnings : Nat
  deriving DecidableEq

/-- Modelled from the spec: one call to the one-shot announce capability.
Calling it after expiry, or more than once, emits nothing and raises a
developer warning (spec 4.6); the first timely call emits the message. -/
def announceOnce (os : OneShotAnnounce) (msg : String) :
    OneShotAnnounce × Option String × Bool :=
  if os.isExpired then (os, none, true)
  else if os.wasCalled then (os, none, true)
  else ({ wasCalled := true, isExpired := false }, some msg, false)

/-- Run the sequence of `announce` calls a responder makes synchronously
during its callback, threading the one-shot capability through. -/
def runResponderCalls (os : OneShotAnnounce) :
    List String → OneShotAnnounce × AnnounceOutcome
  | [] => (os, { emitted := [], warnings := 0 })
  | msg :: rest =>
      let step := announceOnce os msg
      let next := runResponderCalls step.1 rest
      (next.1,
       { emitted := step.2.1.toList ++ next.2.emitted,
         warnings := (if step.2.2 then 1 else 0) + next.2.warnings })

/-- Modelled from the spec: one state-machine transition through the
Responder Middleware (spec 4.6).  A responder is abstracted by the list of
messages it synchronously passes to `announce` during its callback (`none`
when the responder is absent).  A fresh one-shot capability is provided; if
the callback never used it, the deterministic default message is announced;
the capability then expires so later (asynchronous) calls are rejected.
Returns the outcome and the expired capability. -/
def executeTransition (responder : Option (List String)) (defaultMsg : String) :
    AnnounceOutcome × OneShotAnnounce :=
  let r := runResponderCalls { wasCalled := false, isExpired := false }
    (responder.getD [])
  let out : AnnounceOutcome :=
    if r.1.wasCalled then r.2
    else { r.2 with emitted := r.2.emitted ++ [defaultMsg] }
  (out, { r.1 with isExpired := true })

/-- Location of a draggable: droppable id and index, as in the
`source`/`destination` fields of a `DropResult`. -/
structure DraggableLocation where
  droppableId : String
  index : Nat
  deriving DecidableEq

/-- Reason a drag ended. -/
inductive DropReason where
  | drop
  | cancel
  deriving DecidableEq

/-- Drop result delivered to the consumer's `onDragEnd`. -/
structure DropResult where
  source : DraggableLocation
  destination : Option DraggableLocation
  reason : DropReason
  deriving DecidableEq

/-- Modelled from the spec: the `reorder` list helper imported by the example
app (the `../reorder` module is not among the sources): remove the item at
`startIndex` and re-insert it at `endIndex`, so that "the item now sits at
index j and all items between are shifted by exactly one position" (spec
section 8, round-trip reorder). -/
def reorder {α : Type} (list : List α) (startIndex endIndex : Nat) : List α :=
  match list[startIndex]? with
  | none => list
  | some removed => List.insertIdx endIndex removed (list.eraseIdx startIndex)

/-- Embedding of the example app's `onDragEnd` (`src/unnamed/part_001` lines
65-85): a drop outside any list, or a drop back at the source index, leaves
the quotes unchanged; otherwise the list is reordered from the source index
to the destination index. -/
def onDragEnd {α : Type} (result : DropResult) (quotes : List α) : List α :=
  match result.destination with
  | none => quotes
  | some destination =>
      if destination.index = result.source.index then quotes
      else reorder quotes result.source.index destination.index

/-! Helper lemmas shared by the claim theorems. -/

/-- A release-free trace against a claimed lock admits no successful
acquisition. -/
theorem runLock_le_one (m : LockMarshal) (es : List LockEvent)
    (hnr : ∀ e ∈ es, e ≠ LockEvent.release) :
    (runLock m es).2 ≤ 1 := by
  induction es generalizing m with
  | nil => simp [runLock]
  | cons e rest ih =>
      cases e with
      | release => exact absurd rfl (hnr LockEvent.release (List.mem_cons_self _ _))
      | tryGet i =>
          have hrest : ∀ e ∈ rest, e ≠ LockEvent.release := fun e he =>
            hnr e (List.mem_cons_of_mem _ he)
          by_cases hm : m.claimedBy.isSome
          · have h0 := runLock_claimed_eq_zero m (LockEvent.tryGet i :: rest) hm hnr
            omega
          · have hstep : tryGetLock m i = ({ claimedBy := some i }, true) := by
              simp [tryGetLock, hm]
            have h0 : (runLock { claimedBy := some i } rest).2 = 0 :=
              runLock_claimed_eq_zero _ rest rfl hrest
            simp [runLock, hstep, h0]

/-! Claim theorems. -/

/-- Claim C1: at most one drag lock exists system-wide: in any release-free
trace of lock events at most one `tryGetLock` call succeeds, every
acquisition attempt made while the lock is held fails without side effects,
and a trace starting with the lock held admits no success at all. -/
theorem lock_exclusivity (m : LockMarshal) (es : List LockEvent)
    (hnr : ∀ e ∈ es, e ≠ LockEvent.release) :
    (runLock m es).2 ≤ 1 ∧
    (∀ i, m.claimedBy.isSome → tryGetLock m i = (m, false)) ∧
    (m.claimedBy.isSome → (runLock m es).2 = 0) :=
  ⟨runLock_le_one m es hnr,
   fun _i hm => by simp [tryGetLock, hm],
   fun hm => runLock_claimed_eq_zero m es hm hnr⟩

/-- Witness for claim C1: two competing acquisition attempts with no release
in between; at most one succeeds. -/
theorem lock_exclusivity_witness :
    (runLock { claimedBy := none } [LockEvent.tryGet 1, LockEvent.tryGet 2]).2 ≤ 1 :=
  (lock_exclusivity { claimedBy := none } [LockEvent.tryGet 1, LockEvent.tryGet 2]
    (by decide)).1

/-- Claim C2: an uncaught external error reaching the engine aborts any
active drag via `flush` and releases the lock: afterwards the published
phase is IDLE and a fresh `tryGetLock` succeeds immediately; the outcome is
identical for every error, whose cause is never inspected. -/
theorem abort_on_external_error (Error : Type) (err err2 : Error) (e : Engine)
    (i : Nat) :
    ((onExternalError Error err e).drag).phase = Phase.idle ∧
    (onExternalError Error err e).lock.claimedBy = none ∧
    (tryGetLock (onExternalError Error err e).lock i).2 = true ∧
    onExternalError Error err e = onExternalError Error err2 e := by
  refine ⟨?_, rfl, by simp [onExternalError, releaseLock, tryGetLock], rfl⟩
  show (tryResetStore e.drag).phase = Phase.idle
  unfold tryResetStore
  cases e.drag <;> simp [flush, DragState.phase]

/-- Claim C5: `flush` is a universal cancellation primitive: callable from
every phase, it unconditionally yields phase IDLE, and when the state is
already IDLE calling it changes nothing. -/
theorem flush_universal_cancellation (s : DragState) :
    (flush s).phase = Phase.idle ∧ (s.phase = Phase.idle → flush s = s) := by
  constructor
  · rfl
  · intro h
    cases s <;> simp_all [DragState.phase, flush]

/-- Witness for claim C5 at the idle state. -/
theorem flush_universal_cancellation_witness :
    (flush DragState.idle).phase = Phase.idle ∧
    flush DragState.idle = DragState.idle :=
  ⟨(flush_universal_cancellation DragState.idle).1,
   (flush_universal_cancellation DragState.idle).2 rfl⟩

/-- Claim C10: the App's `isDragging` callback reports true for every
DROP_ANIMATING state, false for the IDLE state, and for every other phase
defers to the state's own `isDragging` flag. -/
theorem isDragging_callback_characterisation (d : DragData) :
    isDragging (DragState.dropAnimating d) = true ∧
    isDragging DragState.idle = false ∧
    isDragging (DragState.collecting d) = d.isDragging ∧
    isDragging (DragState.dragging d) = d.isDragging ∧
    isDragging (DragState.dropPending d) = d.isDragging := by
  refine ⟨rfl, rfl, ?_, ?_, ?_⟩ <;>
    simp [isDragging, DragState.phase, DragState.isDraggingFlag]

/-- Issuing moves never applies a state update by itself. -/
theorem moveAll_applied (t : MoveThrottler) (ps : List Position) :
    (moveAll t ps).applied = t.applied := by
  induction ps generalizing t with
  | nil => rfl
  | cons p rest ih => exact ih (move t p)

/-- After a nonempty burst of moves, exactly the last position is pending. -/
theorem moveAll_pending (t : MoveThrottler) (p : Position) (ps : List Position) :
    (moveAll t (p :: ps)).pending = (p :: ps).getLast? := by
  induction ps generalizing t p with
  | nil => simp [moveAll, move]
  | cons q rest ih =>
      have h : moveAll t (p :: q :: rest) = moveAll (move t p) (q :: rest) := rfl
      rw [h, ih (move t p) q, List.getLast?_cons_cons]

/-- The frame tick after a burst of moves applies exactly the most recent
position of the burst, if any. -/
theorem frameTick_moveAll (applied0 ps : List Position) :
    (frameTick (moveAll { pending := none, applied := applied0 } ps)).applied
      = applied0 ++ ps.getLast?.toList := by
  cases ps with
  | nil => simp [moveAll, frameTick]
  | cons p rest =>
      rcases hq : (p :: rest).getLast? with _ | q
      · simp at hq
      · have h1 := moveAll_pending { pending := none, applied := applied0 } p rest
        have h2 := moveAll_applied
          { pending := none, applied := applied0 } (p :: rest)
        rw [hq] at h1
        simp [frameTick, h1, h2]

/-- Claim C3: within one animation frame, `move` calls coalesce: no
move-derived state update is observable before the frame tick fires, and the
tick applies at most one update, carrying the most recent position received
that frame; all intermediate positions are dropped. -/
theorem move_throttling (applied0 ps : List Position) :
    (moveAll { pending := none, applied := applied0 } ps).applied = applied0 ∧
    (frameTick (moveAll { pending := none, applied := applied0 } ps)).applied
      = applied0 ++ ps.getLast?.toList ∧
    ((frameTick (moveAll { pending := none, applied := applied0 } ps)).applied).length
      ≤ applied0.length + 1 := by
  refine ⟨moveAll_applied _ ps, frameTick_moveAll applied0 ps, ?_⟩
  rw [frameTick_moveAll applied0 ps]
  cases ps.getLast? <;> simp [Option.toList]

/-- Claim C9: methods on a stale or released fluid handle are no-op-safe
rejections: after `cancel()`, a move queued before the cancel is discarded
and the next animation-frame tick applies no state update, and further
`move` or `cancel` calls on the released handle change nothing. -/
theorem stale_handle_noop (h : FluidHandle) (p q : Position)
    (hA : h.isActive = true) :
    (fluidTick (fluidCancel (fluidMove h p))).throttler.applied
      = h.throttler.applied ∧
    fluidMove (fluidCancel (fluidMove h p)) q = fluidCancel (fluidMove h p) ∧
    fluidCancel (fluidCancel (fluidMove h p)) = fluidCancel (fluidMove h p) := by
  cases h with
  | mk a t =>
      cases a with
      | true => simp [fluidMove, fluidCancel, fluidTick, move, frameTick]
      | false => cases hA

/-- Witness for claim C9: a live handle with an empty update log; a queued
move followed by a cancel yields no update at the tick. -/
theorem stale_handle_noop_witness :
    (fluidTick (fluidCancel (fluidMove
        { isActive := true, throttler := { pending := none, applied := [] } }
        { x := 1, y := 5 }))).throttler.applied = [] :=
  (stale_handle_noop
    { isActive := true, throttler := { pending := none, applied := [] } }
    { x := 1, y := 5 } { x := 2, y := 2 } rfl).1

/-- Running further responder announce calls after the capability was already
used emits nothing; each call is counted as a developer warning. -/
theorem runResponderCalls_called (msgs : List String) :
    runResponderCalls { wasCalled := true, isExpired := false } msgs
      = ({ wasCalled := true, isExpired := false },
         { emitted := [], warnings := msgs.length }) := by
  induction msgs with
  | nil => rfl
  | cons m rest ih => simp [runResponderCalls, announceOnce, ih, Nat.add_comm]

/-- Running a responder that calls announce at least once against a fresh
capability emits exactly the first message; all later calls warn. -/
theorem runResponderCalls_fresh (m : String) (rest : List String) :
    runResponderCalls { wasCalled := false, isExpired := false } (m :: rest)
      = ({ wasCalled := true, isExpired := false },
         { emitted := [m], warnings := rest.length }) := by
  simp [runResponderCalls, announceOnce, runResponderCalls_called rest]

/-- Claim C6: each lifecycle transition announces exactly once: with no
responder, or a responder that never uses the announce capability, the
deterministic default message is announced; a responder that announces
suppresses the default and only its first message is announced. -/
theorem announce_exactly_once (responder : Option (List String))
    (defaultMsg : String) :
    ((executeTransition responder defaultMsg).1.emitted).length = 1 ∧
    (responder = none →
      (executeTransition responder defaultMsg).1.emitted = [defaultMsg]) ∧
    (responder = some [] →
      (executeTransition responder defaultMsg).1.emitted = [defaultMsg]) ∧
    (∀ m rest, responder = some (m :: rest) →
      (executeTransition responder defaultMsg).1.emitted = [m]) := by
  rcases responder with _ | (_ | ⟨m, rest⟩)
  · simp [executeTransition, runResponderCalls]
  · simp [executeTransition, runResponderCalls]
  · simp [executeTransition, runResponderCalls_fresh]

/-- Witness for claim C6: an absent responder announces the default message;
a responder announcing once announces only its own message. -/
theorem announce_exactly_once_witness :
    (executeTransition none "default").1.emitted = ["default"] ∧
    (executeTransition (some ["hello"]) "default").1.emitted = ["hello"] :=
  ⟨(announce_exactly_once none "default").2.1 rfl,
   (announce_exactly_once (some ["hello"]) "default").2.2.2 "hello" [] rfl⟩

/-- Claim C7: misusing the one-shot announce capability degrades to developer
warnings: a responder calling announce more than once still emits only its
first message, each extra synchronous call is counted as a warning, and any
call on the expired capability returned after the transition (an
asynchronous announcement) emits nothing and warns, without any abort. -/
theorem announce_misuse_warns (m1 m2 : String) (rest : List String)
    (defaultMsg msg : String) (responder : Option (List String)) :
    (executeTransition (some (m1 :: m2 :: rest)) defaultMsg).1.emitted = [m1] ∧
    (executeTransition (some (m1 :: m2 :: rest)) defaultMsg).1.warnings
      = rest.length + 1 ∧
    announceOnce (executeTransition responder defaultMsg).2 msg
      = ((executeTransition responder defaultMsg).2, none, true) := by
  refine ⟨?_, ?_, ?_⟩
  · simp [executeTransition, runResponderCalls_fresh]
  · simp [executeTransition, runResponderCalls_fresh, Nat.add_comm]
  · simp [announceOnce, executeTransition]

/-- Optional lookup below the insertion point is unchanged. -/
theorem getElem?_insertIdx_lt {α : Type} (l : List α) (x : α) (n k : Nat)
    (hkn : k < n) (hn : n ≤ l.length) :
    (List.insertIdx n x l)[k]? = l[k]? := by
  have hk : k < l.length := lt_of_lt_of_le hkn hn
  have hk2 : k < (List.insertIdx n x l).length := by
    rw [List.length_insertIdx n l hn]; omega
  rw [List.getElem?_eq_getElem hk, List.getElem?_eq_getElem hk2,
    List.getElem_insertIdx_of_lt l x n k hkn hk]

/-- Optional lookup at the insertion point finds the inserted element. -/
theorem getElem?_insertIdx_self_eq {α : Type} (l : List α) (x : α) (n : Nat)
    (hn : n ≤ l.length) :
    (List.insertIdx n x l)[n]? = some x := by
  have hk2 : n < (List.insertIdx n x l).length := by
    rw [List.length_insertIdx n l hn]; omega
  rw [List.getElem?_eq_getElem hk2, List.getElem_insertIdx_self l x n hn]

/-- Optional lookup above the insertion point shifts down by one. -/
theorem getElem?_insertIdx_add_succ_eq {α : Type} (l : List α) (x : α)
    (n k : Nat) (hn : n ≤ l.length) :
    (List.insertIdx n x l)[n + k + 1]? = l[n + k]? := by
  by_cases h : n + k < l.length
  · have hk2 : n + k + 1 < (List.insertIdx n x l).length := by
      rw [List.length_insertIdx n l hn]; omega
    rw [List.getElem?_eq_getElem hk2, List.getElem?_eq_getElem h,
      List.getElem_insertIdx_add_succ l x n k h]
  · have h1 : l.length ≤ n + k := Nat.le_of_not_lt h
    have h2 : (List.insertIdx n x l).length ≤ n + k + 1 := by
      rw [List.length_insertIdx n l hn]; omega
    rw [List.getElem?_eq_none h2, List.getElem?_eq_none h1]

/-- On a valid source index, `reorder` is erase-then-insert of the removed
item. -/
theorem reorder_eq {α : Type} (l : List α) (i j : Nat) (h : i < l.length) :
    reorder l i j = List.insertIdx j l[i] (l.eraseIdx i) := by
  simp [reorder, List.getElem?_eq_getElem h]

/-- Claim C8: a drop with no destination, or with destination index equal to
the source index, leaves the consumer's list completely unchanged. -/
theorem onDragEnd_noop {α : Type} (result : DropResult) (quotes : List α)
    (h : result.destination = none ∨
      ∃ d, result.destination = some d ∧ d.index = result.source.index) :
    onDragEnd result quotes = quotes := by
  rcases h with h | ⟨d, hd, hidx⟩
  · simp [onDragEnd, h]
  · simp [onDragEnd, hd, hidx]

/-- Witness for claim C8: a drop outside any list and a drop back at the
source index both leave the list unchanged. -/
theorem onDragEnd_noop_witness :
    onDragEnd
      { source := { droppableId := "list", index := 1 },
        destination := none,
        reason := DropReason.drop }
      ["A", "B", "C"] = ["A", "B", "C"] ∧
    onDragEnd
      { source := { droppableId := "list", index := 1 },
        destination := some { droppableId := "list", index := 1 },
        reason := DropReason.drop }
      ["A", "B", "C"] = ["A", "B", "C"] :=
  ⟨onDragEnd_noop _ _ (Or.inl rfl),
   onDragEnd_noop _ _ (Or.inr ⟨_, rfl, rfl⟩)⟩

/-- Claim C4: lifting the item at index i, moving to index j and dropping
with reason DROP puts that item at index j, shifts every item strictly
between i and j (and the old occupant of j) by exactly one position, leaves
every item outside the affected range in place, and neither loses nor
duplicates items; in particular for [A, B, C], lifting A and moving down
twice then dropping yields [B, C, A]. -/
theorem reorder_round_trip {α : Type} (l : List α) (i j : Nat)
    (src dst : String) (hi : i < l.length) (hj : j < l.length) :
    (j ≠ i → onDragEnd
      { source := { droppableId := src, index := i },
        destination := some { droppableId := dst, index := j },
        reason := DropReason.drop } l = reorder l i j) ∧
    (reorder l i j)[j]? = l[i]? ∧
    (∀ k, i < k → k ≤ j → (reorder l i j)[k - 1]? = l[k]?) ∧
    (∀ k, j ≤ k → k < i → (reorder l i j)[k + 1]? = l[k]?) ∧
    (∀ k, k < i → k < j → (reorder l i j)[k]? = l[k]?) ∧
    (∀ k, i < k → j < k → (reorder l i j)[k]? = l[k]?) ∧
    (reorder l i j).Perm l ∧
    onDragEnd
      { source := { droppableId := "list", index := 0 },
        destination := some { droppableId := "list", index := 2 },
        reason := DropReason.drop } ["A", "B", "C"] = ["B", "C", "A"] := by
  have hE : (l.eraseIdx i).length = l.length - 1 := by
    simp [List.length_eraseIdx, hi]
  have hjE : j ≤ (l.eraseIdx i).length := by omega
  have hre : reorder l i j = List.insertIdx j l[i] (l.eraseIdx i) :=
    reorder_eq l i j hi
  refine ⟨?_, ?_, ?_, ?_, ?_, ?_, ?_, ?_⟩
  · intro hne
    simp [onDragEnd, hne]
  · rw [hre, getElem?_insertIdx_self_eq _ _ _ hjE, List.getElem?_eq_getElem hi]
  · intro k hik hkj
    obtain ⟨m, rfl⟩ : ∃ m, k = m + 1 := ⟨k - 1, by omega⟩
    simp only [Nat.add_sub_cancel]
    have hmj : m < j := by omega
    rw [hre, getElem?_insertIdx_lt _ _ _ _ hmj hjE, List.getElem?_eraseIdx,
      if_neg (by omega)]
  · intro k hjk hki
    obtain ⟨m, rfl⟩ : ∃ m, k = j + m := ⟨k - j, by omega⟩
    rw [hre, getElem?_insertIdx_add_succ_eq _ _ _ _ hjE, List.getElem?_eraseIdx,
      if_pos (by omega)]
  · intro k hki hkj
    rw [hre, getElem?_insertIdx_lt _ _ _ _ hkj hjE, List.getElem?_eraseIdx,
      if_pos hki]
  · intro k hik hjk
    obtain ⟨m, rfl⟩ : ∃ m, k = j + m + 1 := ⟨k - j - 1, by omega⟩
    rw [hre, getElem?_insertIdx_add_succ_eq _ _ _ _ hjE, List.getElem?_eraseIdx,
      if_neg (by omega)]
  · rw [hre]
    have h1 : (List.insertIdx j l[i] (l.eraseIdx i)).Perm (l[i] :: l.eraseIdx i) :=
      List.perm_insertIdx _ _ hjE
    have h4 : List.take i l ++ l[i] :: List.drop (i + 1) l = l := by
      rw [List.get_drop_eq_drop l i hi, List.take_append_drop]
    have h5 : (l[i] :: (List.take i l ++ List.drop (i + 1) l)).Perm
        (List.take i l ++ l[i] :: List.drop (i + 1) l) :=
      List.perm_middle.symm
    rw [h4] at h5
    have h2 : (l[i] :: l.eraseIdx i).Perm l := by
      rw [List.eraseIdx_eq_take_drop_succ]
      exact h5
    exact h1.trans h2
  · rfl

/-- Witness for claim C4: the three-item scenario, lifting A at index 0 and
dropping it at index 2. -/
theorem reorder_round_trip_witness :
    (reorder ["A", "B", "C"] 0 2)[2]? = (["A", "B", "C"] : List String)[0]? ∧
    (reorder ["A", "B", "C"] 0 2).Perm ["A", "B", "C"] ∧
    onDragEnd
      { source := { droppableId := "list", index := 0 },
        destination := some { droppableId := "list", index := 2 },
        reason := DropReason.drop } ["A", "B", "C"] = ["B", "C", "A"] :=
  ⟨(reorder_round_trip ["A", "B", "C"] 0 2 "list" "list"
      (by decide) (by decide)).2.1,
   (reorder_round_trip ["A", "B", "C"] 0 2 "list" "list"
      (by decide) (by decide)).2.2.2.2.2.2.1,
   (reorder_round_trip ["A", "B", "C"] 0 2 "list" "list"
      (by decide) (by decide)).2.2.2.2.2.2.2⟩

end Dnd
